import Mathlib

/-!
# QuantMind signal engine — shallow embedding and verification

This file embeds the signal engine of the QuantMind repository
(`strategyService` in two variants plus the market-regime analyzer) in
Lean 4 and settles a list of claims about it.

Modelling conventions:

* JavaScript numbers are idealized as exact rationals `ℚ`.  `Math.sqrt`
  cannot be realized inside `ℚ`, so it is abstracted as an explicit
  parameter `sq : ℚ → ℚ` threaded through every definition that the
  source reaches through `Math.sqrt`; every theorem below is proved for
  all `sq`, and no claim in scope depends on a concrete square-root
  value.
* `array[i]` reads that can be out of range in the source are modelled
  with `Option`; a JavaScript comparison against `undefined` (always
  false) is modelled by comparison helpers on `Option ℚ` that return
  `false` when either side is `none`.  The truthiness test `!x` on a
  number-or-undefined is true exactly for `undefined` and `0`.
* `Record<string, MarketCandle[]>` is modelled as a total function
  `String → List Candle` with `[]` for absent keys: the source guards
  every use of a possibly-absent entry with a length-≥-30 test that `[]`
  fails as well.
* Fields of `MarketCandle` and `Trade` that the signal engine never
  reads (timestamps, open/high/low, leverage, pnl, …) are omitted from
  the embedded records.
* `parseFloat(x.toFixed(2))` is modelled as rounding to an integer
  number of hundredths (`round2`).
-/

/-- Ternary trading signal, `'BUY' | 'SELL' | 'NEUTRAL'` in the source. -/
inductive Signal where
  | BUY
  | SELL
  | NEUTRAL
deriving DecidableEq, Repr

/-- `StrategyType` enum from `types.ts`. -/
inductive StrategyType where
  | MA_CROSSOVER
  | RSI_REVERSION
  | BOLLINGER_BREAKOUT
  | MACD_TREND
  | EMA_CROSSOVER
  | MARTINGALE
  | ARBITRAGE
deriving DecidableEq, Repr

/-- `MarketRegimeType` from `types.ts` (the four regime labels). -/
inductive MarketRegimeType where
  | TRENDING_UP
  | TRENDING_DOWN
  | RANGING
  | VOLATILE
deriving DecidableEq, Repr

/-- `MarketRegime`: regime type, 0–100 volatility score, 0–100 trend
strength, human-readable description. -/
structure MarketRegime where
  type : MarketRegimeType
  volatility : ℚ
  trendStrength : ℚ
  description : String
deriving DecidableEq, Repr

/-- One OHLCV candle.  Only the fields the signal engine reads
(`symbol`, `close`, `volume`) are modelled. -/
structure Candle where
  symbol : String
  close : ℚ
  volume : ℚ
deriving DecidableEq, Repr

/-- Open/closed status of a `Trade`. -/
inductive TradeStatus where
  | OPEN
  | CLOSED
deriving DecidableEq, Repr

/-- A position (`Trade` in `types.ts`).  Only the fields the engine
reads (`symbol`, `price` = entry price, `amount`, `status`) are
modelled. -/
structure Trade where
  symbol : String
  price : ℚ
  amount : ℚ
  status : TradeStatus
deriving DecidableEq, Repr

/-- `StrategyParameters` from `types.ts`: period fields are modelled as
naturals, thresholds and percentages as rationals. -/
structure StrategyParameters where
  fastPeriod : ℕ
  slowPeriod : ℕ
  rsiPeriod : ℕ
  rsiOverbought : ℚ
  rsiOversold : ℚ
  bbPeriod : ℕ
  bbStdDev : ℚ
  macdFast : ℕ
  macdSlow : ℕ
  macdSignal : ℕ
  martingalePriceDrop : ℚ
  martingaleProfitTarget : ℚ
  martingaleVolumeMultiplier : ℚ
deriving DecidableEq, Repr

/-- `StrategyConfigItem`: strategy type, enabled flag, base weight. -/
structure StrategyConfigItem where
  type : StrategyType
  enabled : Bool
  weight : ℚ
deriving DecidableEq, Repr

/-- One entry of the `breakdown` array returned by the plain composite
(`getCompositeStrategySignal`, first strategy-service variant). -/
structure BreakdownItem where
  type : StrategyType
  signal : Signal
  weight : ℚ
deriving DecidableEq, Repr

/-- Result record of the plain composite. -/
structure CompositeSignalResult where
  signal : Signal
  score : ℚ
  breakdown : List BreakdownItem
deriving DecidableEq, Repr

/-- `StrategyInsight` without the presentation-only fields (`metrics`
label/value strings and the `tuningAction` message are never consumed by
any claim and would require modelling JS number formatting). -/
structure StrategyInsight where
  type : StrategyType
  signal : Signal
  rawScore : ℚ
  baseWeight : ℚ
  adjustedWeight : ℚ
deriving DecidableEq, Repr

/-- `Omit<StrategyInsight, 'baseWeight' | 'adjustedWeight'>`: what
`getStrategyInsight` itself returns. -/
structure RawInsight where
  type : StrategyType
  signal : Signal
  rawScore : ℚ
deriving DecidableEq, Repr

/-- `CompositeAnalysisResult`: output of the regime-aware composite. -/
structure CompositeAnalysisResult where
  signal : Signal
  score : ℚ
  regime : MarketRegime
  insights : List StrategyInsight
deriving DecidableEq, Repr

/-! ## Generic helpers for the JS idioms used by the engine -/

/-- `l.slice(-n)` for `n ≥ 1`: the last `n` elements (all of `l` when
`n ≥ l.length`). -/
def lastN (l : List ℚ) (n : ℕ) : List ℚ :=
  l.drop (l.length - n)

/-- Consecutive differences `l[i] - l[i-1]`, oldest first. -/
def diffsOf : List ℚ → List ℚ
  | a :: b :: t => (b - a) :: diffsOf (b :: t)
  | _ => []

/-- Consecutive relative returns `(l[i] - l[i-1]) / l[i-1]`. -/
def diffRatios : List ℚ → List ℚ
  | a :: b :: t => ((b - a) / a) :: diffRatios (b :: t)
  | _ => []

/-- Arithmetic mean `sum / length` (JS yields `NaN` on `[]`; here the
total `ℚ` division yields `0`; every use in the engine is guarded by a
non-emptiness check). -/
def meanQ (l : List ℚ) : ℚ :=
  l.sum / l.length

/-- Population variance: mean of squared deviations from the mean. -/
def popVariance (l : List ℚ) : ℚ :=
  (l.map (fun x => (x - meanQ l) ^ 2)).sum / l.length

/-- `arr[i]` with a signed index as the source computes it:
out-of-range (negative included) gives `undefined`, modelled `none`. -/
def jsIdx (l : List ℚ) (i : ℤ) : Option ℚ :=
  if i < 0 then none else l.get? i.toNat

/-- JS `a <= b` where either side may be `undefined` (then `false`). -/
def jsLE (a b : Option ℚ) : Bool :=
  match a, b with
  | some x, some y => decide (x ≤ y)
  | _, _ => false

/-- JS `a >= b` where either side may be `undefined` (then `false`). -/
def jsGE (a b : Option ℚ) : Bool :=
  match a, b with
  | some x, some y => decide (y ≤ x)
  | _, _ => false

/-- JS `a < b` where either side may be `undefined` (then `false`). -/
def jsLT (a b : Option ℚ) : Bool :=
  match a, b with
  | some x, some y => decide (x < y)
  | _, _ => false

/-- JS `a > b` where either side may be `undefined` (then `false`). -/
def jsGT (a b : Option ℚ) : Bool :=
  match a, b with
  | some x, some y => decide (y < x)
  | _, _ => false

/-- JS strict equality `a === 0` where `a` may be `undefined`. -/
def jsEqZero (a : Option ℚ) : Bool :=
  match a with
  | some x => decide (x = 0)
  | none => false

/-- `parseFloat(x.toFixed(2))`: round to a whole number of hundredths. -/
def round2 (x : ℚ) : ℚ :=
  (round (x * 100) : ℤ) / 100

/-- Numeric vote of a signal: BUY = +1, SELL = −1, NEUTRAL = 0. -/
def numericSignal : Signal → ℚ
  | .BUY => 1
  | .SELL => -1
  | .NEUTRAL => 0

/-! ## Indicator library (`strategyService`, first variant) -/

/-- `calculateSMA(data, period)`: mean of the last `period` values,
`0` when there is not enough data. -/
def calculateSMA (data : List ℚ) (period : ℕ) : ℚ :=
  if data.length < period then 0
  else (lastN data period).sum / period

/-- `calculateEMASeries` tail: given `k` and the previous EMA value,
produce the EMA of each further input value. -/
def emaSeriesTail (k : ℚ) (prev : ℚ) : List ℚ → List ℚ
  | [] => []
  | x :: xs => (x * k + prev * (1 - k)) :: emaSeriesTail k (x * k + prev * (1 - k)) xs

/-- `calculateEMASeries(data, period)`: EMA series seeded with the first
raw value, recurrence `ema[i] = data[i]*k + ema[i-1]*(1-k)` with
`k = 2/(period+1)`; empty for empty input. -/
def calculateEMASeries (data : List ℚ) (period : ℕ) : List ℚ :=
  match data with
  | [] => []
  | x :: xs => x :: emaSeriesTail (2 / ((period : ℚ) + 1)) x xs

/-- `calculateRSI(candles, period)`: 50 with fewer than `period + 1`
candles; otherwise sums gains and losses of the close-to-close
differences over the last `period` bars (a zero difference counts as a
gain), returns 100 when the losses sum to 0, else
`100 - 100/(1 + gains/losses)`. -/
def calculateRSI (candles : List Candle) (period : ℕ) : ℚ :=
  if candles.length < period + 1 then 50
  else
    let closes := candles.map (·.close)
    let ds := diffsOf (closes.drop (closes.length - (period + 1)))
    let gains := (ds.map (fun d => if 0 ≤ d then d else 0)).sum
    let losses := (ds.map (fun d => if 0 ≤ d then 0 else -d)).sum
    if losses = 0 then 100 else 100 - 100 / (1 + gains / losses)

/-- Bollinger band triple. -/
structure BollingerBands where
  middle : ℚ
  upper : ℚ
  lower : ℚ
deriving DecidableEq, Repr

/-- `calculateBollingerBands(candles, period, stdDevMult)`: all-zero
bands when there are fewer than `period` closes, otherwise
`SMA ± sqrt(population variance of the last period closes) × mult`. -/
def calculateBollingerBands (sq : ℚ → ℚ) (candles : List Candle)
    (period : ℕ) (stdDevMult : ℚ) : BollingerBands :=
  let closes := candles.map (·.close)
  if closes.length < period then ⟨0, 0, 0⟩
  else
    let sma := calculateSMA closes period
    let slice := lastN closes period
    let variance := (slice.map (fun val => (val - sma) ^ 2)).sum / (period : ℚ)
    let stdDev := sq variance
    ⟨sma, sma + stdDev * stdDevMult, sma - stdDev * stdDevMult⟩

/-- The four values `calculateMACD` returns; the `prev` entries (and, on
empty series, the latest entries) can be `undefined` in the source. -/
structure MACDResult where
  macdLine : Option ℚ
  signalLine : Option ℚ
  prevMacdLine : Option ℚ
  prevSignalLine : Option ℚ
deriving DecidableEq, Repr

/-- `calculateMACD(candles, fast, slow, signal)`: all zeros with fewer
than `slow + signal` closes; otherwise the last and second-to-last
values of the MACD line (`EMA fast − EMA slow`, per index) and of its
`signal`-period EMA. -/
def calculateMACD (candles : List Candle) (fast slow signal : ℕ) : MACDResult :=
  let closes := candles.map (·.close)
  if closes.length < slow + signal then ⟨some 0, some 0, some 0, some 0⟩
  else
    let emaFast := calculateEMASeries closes fast
    let emaSlow := calculateEMASeries closes slow
    let macdLineSeries := List.zipWith (fun a b => a - b) emaFast emaSlow
    let signalLineSeries := calculateEMASeries macdLineSeries signal
    ⟨macdLineSeries.get? (macdLineSeries.length - 1),
     signalLineSeries.get? (signalLineSeries.length - 1),
     jsIdx macdLineSeries ((macdLineSeries.length : ℤ) - 2),
     jsIdx signalLineSeries ((signalLineSeries.length : ℤ) - 2)⟩

/-! ## Per-strategy evaluators (`getStrategySignal` cases) -/

/-- `MA_CROSSOVER` case of `getStrategySignal`: golden/death cross of
fast/slow SMA gated by a slope condition. -/
def maCrossoverSignal (params : StrategyParameters) (closes : List ℚ) : Signal :=
  let fastP := params.fastPeriod
  let slowP := params.slowPeriod
  if closes.length < slowP + 5 then .NEUTRAL
  else
    let currentPrice := closes.getLast?.getD 0
    let maFast := calculateSMA closes fastP
    let maSlow := calculateSMA closes slowP
    let prevMaFast := calculateSMA (closes.dropLast) fastP
    let prevMaSlow := calculateSMA (closes.dropLast) slowP
    let maFastPrev3 := calculateSMA (closes.dropLast.dropLast.dropLast) fastP
    let maSlowPrev3 := calculateSMA (closes.dropLast.dropLast.dropLast) slowP
    let slopeFast := (maFast - maFastPrev3) / 3
    let slopeSlow := (maSlow - maSlowPrev3) / 3
    let isGoldenCross := prevMaFast ≤ prevMaSlow ∧ maSlow < maFast
    let isDeathCross := prevMaSlow ≤ prevMaFast ∧ maFast < maSlow
    if ¬isGoldenCross ∧ ¬isDeathCross then .NEUTRAL
    else
      let slopeThreshold := currentPrice * 0.00005
      if isGoldenCross ∧ slopeThreshold < slopeFast ∧ -slopeThreshold < slopeSlow then .BUY
      else if isDeathCross ∧ slopeFast < -slopeThreshold ∧ slopeSlow < slopeThreshold then .SELL
      else .NEUTRAL

/-- `EMA_CROSSOVER` case of `getStrategySignal`: EMA crossover with no
slope filter; second-to-last reads modelled with `Option`. -/
def emaCrossoverSignal (params : StrategyParameters) (closes : List ℚ) : Signal :=
  let slowP := params.slowPeriod
  if closes.length < slowP + 1 then .NEUTRAL
  else
    let emaFastSeries := calculateEMASeries closes params.fastPeriod
    let emaSlowSeries := calculateEMASeries closes params.slowPeriod
    let emaFast := emaFastSeries.get? (emaFastSeries.length - 1)
    let emaSlow := emaSlowSeries.get? (emaSlowSeries.length - 1)
    let prevEmaFast := jsIdx emaFastSeries ((emaFastSeries.length : ℤ) - 2)
    let prevEmaSlow := jsIdx emaSlowSeries ((emaSlowSeries.length : ℤ) - 2)
    if jsLE prevEmaFast prevEmaSlow ∧ jsGT emaFast emaSlow then .BUY
    else if jsGE prevEmaFast prevEmaSlow ∧ jsLT emaFast emaSlow then .SELL
    else .NEUTRAL

/-- `RSI_REVERSION` case of `getStrategySignal`. -/
def rsiReversionSignal (params : StrategyParameters) (candles : List Candle) : Signal :=
  let rsi := calculateRSI candles params.rsiPeriod
  if rsi < params.rsiOversold then .BUY
  else if params.rsiOverbought < rsi then .SELL
  else .NEUTRAL

/-- `BOLLINGER_BREAKOUT` case of `getStrategySignal`. -/
def bollingerSignal (sq : ℚ → ℚ) (params : StrategyParameters)
    (candles : List Candle) : Signal :=
  let bands := calculateBollingerBands sq candles params.bbPeriod params.bbStdDev
  if bands.lower = 0 then .NEUTRAL
  else
    let currentPrice := (candles.map (·.close)).getLast?.getD 0
    if currentPrice ≤ bands.lower then .BUY
    else if bands.upper ≤ currentPrice then .SELL
    else .NEUTRAL

/-- `MACD_TREND` case of `getStrategySignal`. -/
def macdTrendSignal (params : StrategyParameters) (candles : List Candle) : Signal :=
  let r := calculateMACD candles params.macdFast params.macdSlow params.macdSignal
  if jsEqZero r.macdLine ∧ jsEqZero r.signalLine then .NEUTRAL
  else if jsLE r.prevMacdLine r.prevSignalLine ∧ jsGT r.macdLine r.signalLine then .BUY
  else if jsGE r.prevMacdLine r.prevSignalLine ∧ jsLT r.macdLine r.signalLine then .SELL
  else .NEUTRAL

/-- The open positions of the candles' asset:
`activePositions.filter(p => p.symbol === symbol && p.status === 'OPEN')`
where `symbol = candles[0]?.symbol` (comparison with `undefined` is
false). -/
def martinPositions (candles : List Candle) (activePositions : List Trade) : List Trade :=
  let symbol := candles.head?.map (·.symbol)
  activePositions.filter (fun p => decide (some p.symbol = symbol ∧ p.status = .OPEN))

/-- `MARTINGALE` case of `getStrategySignal`: looser RSI entry when the
asset has no open positions; otherwise add on a price drop from the last
entry, else take profit above the volume-weighted average entry. -/
def martingaleSignal (params : StrategyParameters) (candles : List Candle)
    (activePositions : List Trade) : Signal :=
  let currentPrice := (candles.map (·.close)).getLast?.getD 0
  match martinPositions candles activePositions with
  | [] =>
      if calculateRSI candles params.rsiPeriod < params.rsiOversold + 10 then .BUY
      else .NEUTRAL
  | p :: ps =>
      let lastTrade := (p :: ps).getLast (List.cons_ne_nil p ps)
      let entryPrice := lastTrade.price
      let priceChangePercent := (currentPrice - entryPrice) / entryPrice
      let dropThreshold := -(params.martingalePriceDrop / 100)
      if priceChangePercent < dropThreshold then .BUY
      else
        let totalVol := ((p :: ps).map (·.amount)).sum
        let totalCost := ((p :: ps).map (fun q => q.amount * q.price)).sum
        let avgPrice := totalCost / totalVol
        let avgPriceChange := (currentPrice - avgPrice) / avgPrice
        if params.martingaleProfitTarget / 100 < avgPriceChange then .SELL
        else .NEUTRAL

/-- The per-period BTC returns of the `ARBITRAGE` case: the loop from
`max 1 (len - 20)` to `len - 1` over `(btc[i] - btc[i-1]) / btc[i-1]`. -/
def arbBtcReturns (btcCloses : List ℚ) : List ℚ :=
  let startIdx := max 1 (btcCloses.length - 20)
  (List.range (btcCloses.length - startIdx)).map (fun j =>
    ((btcCloses.getD (startIdx + j) 0) - btcCloses.getD (startIdx + j - 1) 0) /
      btcCloses.getD (startIdx + j - 1) 0)

/-- The dynamic move threshold of the `ARBITRAGE` case:
`max(0.0035, sqrt(variance of the BTC returns) * sqrt(5) * 1.5)`
(`minMoveThreshold` in the source). -/
def arbThreshold (sq : ℚ → ℚ) (btcCloses : List ℚ) : ℚ :=
  max 0.0035 (sq (popVariance (arbBtcReturns btcCloses)) * sq 5 * 1.5)

/-- A 5-bar lookback return `(closes[last] - prev) / prev` as computed
by the `ARBITRAGE` case, `prev` being the price five bars back. -/
def arbReturnOf (closes : List ℚ) (prev : ℚ) : ℚ :=
  (closes.getLast?.getD 0 - prev) / prev

/-- `ARBITRAGE` case of `getStrategySignal`: BTC-leader correlation
catch-up trade with a volatility-scaled move threshold and a liquidity
screen on the target asset. -/
def arbitrageSignal (sq : ℚ → ℚ) (_params : StrategyParameters)
    (candles : List Candle) (allMarketData : String → List Candle) : Signal :=
  let btcData := allMarketData "BTC"
  let symbol := candles.head?.map (·.symbol)
  if btcData.length < 30 then .NEUTRAL
  else
    match symbol with
    | none => .NEUTRAL
    | some sym =>
      -- `!symbol` in the source is true for `undefined` (the `none`
      -- branch above) and for the empty string, which is falsy in JS
      if sym = "" then .NEUTRAL
      else if sym = "BTC" then .NEUTRAL
      else
        let btcCloses := btcData.map (·.close)
        let assetCloses := candles.map (·.close)
        let btcReturns := arbBtcReturns btcCloses
        if btcReturns.length = 0 then .NEUTRAL
        else
          let assetVolumes := lastN (candles.map (·.volume)) 20
          if assetVolumes.length = 0 then .NEUTRAL
          else
            let avgVol := assetVolumes.sum / assetVolumes.length
            let currentVol := (candles.map (·.volume)).getLast?.getD 0
            if currentVol < avgVol * 0.4 then .NEUTRAL
            else
              let prevBtcPrice := jsIdx btcCloses ((btcCloses.length : ℤ) - 1 - 5)
              let prevAssetPrice := jsIdx assetCloses ((assetCloses.length : ℤ) - 1 - 5)
              match prevBtcPrice, prevAssetPrice with
              | some pb, some pa =>
                if pb = 0 ∨ pa = 0 then .NEUTRAL
                else
                  let btcReturn := arbReturnOf btcCloses pb
                  let assetReturn := arbReturnOf assetCloses pa
                  let minMoveThreshold := arbThreshold sq btcCloses
                  if minMoveThreshold < btcReturn ∧ assetReturn < btcReturn * 0.5 then .BUY
                  else if btcReturn < -minMoveThreshold ∧ btcReturn * 0.5 < assetReturn then .SELL
                  else .NEUTRAL
              | _, _ => .NEUTRAL

/-- `getStrategySignal` (first strategy-service variant): dispatch on
the strategy type. -/
def getStrategySignal (sq : ℚ → ℚ) (strategy : StrategyType)
    (candles : List Candle) (activePositions : List Trade)
    (allMarketData : String → List Candle) (params : StrategyParameters) : Signal :=
  match strategy with
  | .MA_CROSSOVER => maCrossoverSignal params (candles.map (·.close))
  | .EMA_CROSSOVER => emaCrossoverSignal params (candles.map (·.close))
  | .RSI_REVERSION => rsiReversionSignal params candles
  | .BOLLINGER_BREAKOUT => bollingerSignal sq params candles
  | .MACD_TREND => macdTrendSignal params candles
  | .MARTINGALE => martingaleSignal params candles activePositions
  | .ARBITRAGE => arbitrageSignal sq params candles allMarketData

/-- The `breakdown` array accumulated by the first composite: one entry
per enabled strategy, holding its type, its `getStrategySignal` result
and its raw weight. -/
def plainBreakdown (sq : ℚ → ℚ) (strategies : List StrategyConfigItem)
    (candles : List Candle) (activePositions : List Trade)
    (allMarketData : String → List Candle) (params : StrategyParameters) :
    List BreakdownItem :=
  (strategies.filter (·.enabled)).map (fun s =>
    ⟨s.type, getStrategySignal sq s.type candles activePositions allMarketData params,
     s.weight⟩)

/-- `getCompositeStrategySignal` (first variant): weighted vote of the
enabled strategies with raw weights, ±0.25 decision thresholds. -/
def getCompositeStrategySignal (sq : ℚ → ℚ) (strategies : List StrategyConfigItem)
    (candles : List Candle) (activePositions : List Trade)
    (allMarketData : String → List Candle) (params : StrategyParameters) :
    CompositeSignalResult :=
  let breakdown := plainBreakdown sq strategies candles activePositions allMarketData params
  let totalScore := (breakdown.map (fun b => numericSignal b.signal * b.weight)).sum
  let totalWeight := (breakdown.map (·.weight)).sum
  if totalWeight = 0 then ⟨.NEUTRAL, 0, breakdown⟩
  else
    let finalScore := totalScore / totalWeight
    ⟨if (0.25 : ℚ) < finalScore then .BUY
      else if finalScore < -0.25 then .SELL else .NEUTRAL,
     finalScore, breakdown⟩

/-! ## Regime-aware variant (`analyzeMarketRegime`, `getStrategyInsight`
and the second `getCompositeStrategySignal`) -/

/-- `calculateStdDev(data)`: population standard deviation. -/
def calculateStdDev (sq : ℚ → ℚ) (data : List ℚ) : ℚ :=
  sq (popVariance data)

/-- `analyzeMarketRegime(candles)`: RANGING with zero scores on fewer
than 30 candles; otherwise a volatility score (stddev of the last 20
relative returns × √20 × 10000, clamped at 100) and a trend score
(relative SMA(7)/SMA(25) gap × 5000, clamped at 100) classified with
precedence VOLATILE > TRENDING_* > RANGING. -/
def analyzeMarketRegime (sq : ℚ → ℚ) (candles : List Candle) : MarketRegime :=
  if candles.length < 30 then
    ⟨.RANGING, 0, 0, "Insufficient Data"⟩
  else
    let closes := candles.map (·.close)
    let returns := diffRatios closes
    let recentReturns := lastN returns 20
    let volRaw := calculateStdDev sq recentReturns * sq 20
    let volatilityScore := min 100 (volRaw * 10000)
    let shortMa := calculateSMA closes 7
    let longMa := calculateSMA closes 25
    let gap := (shortMa - longMa) / longMa
    let trendScore := min 100 (|gap| * 5000)
    if 60 < volatilityScore then
      ⟨.VOLATILE, volatilityScore, trendScore, "高波动剧烈震荡"⟩
    else if 20 < trendScore then
      if longMa < shortMa then
        ⟨.TRENDING_UP, volatilityScore, trendScore, "强势多头趋势"⟩
      else
        ⟨.TRENDING_DOWN, volatilityScore, trendScore, "强势空头趋势"⟩
    else
      ⟨.RANGING, volatilityScore, trendScore, "横盘整理 (Consolidation)"⟩

/-- `getStrategyInsight`: the regime-aware per-strategy snapshot used by
the second composite.  Only `MA_CROSSOVER`, `RSI_REVERSION`,
`BOLLINGER_BREAKOUT` and `MACD_TREND` are implemented; every other
strategy type falls into the default branch and stays NEUTRAL.  The
diagnostic `metrics`/`tuningAction` strings are not modelled. -/
def getStrategyInsight (sq : ℚ → ℚ) (strategy : StrategyType)
    (candles : List Candle) (_activePositions : List Trade)
    (_allMarketData : String → List Candle) (params : StrategyParameters)
    (regime : MarketRegime) : RawInsight :=
  let closes := candles.map (·.close)
  let currentPrice := closes.getLast?.getD 0
  match strategy with
  | .MA_CROSSOVER =>
      let maFast := calculateSMA closes params.fastPeriod
      let maSlow := calculateSMA closes params.slowPeriod
      let spread := ((maFast - maSlow) / maSlow) * 100
      if maSlow < maFast ∧ 0.05 < spread then ⟨strategy, .BUY, 0.8⟩
      else if maFast < maSlow ∧ spread < -0.05 then ⟨strategy, .SELL, -0.8⟩
      else ⟨strategy, .NEUTRAL, 0⟩
  | .RSI_REVERSION =>
      let rsi := calculateRSI candles params.rsiPeriod
      let trendOffset := (⌊regime.trendStrength / 5⌋ : ℤ)
      let buyThresh :=
        if regime.type = .TRENDING_DOWN then params.rsiOversold - (5 + (trendOffset : ℚ))
        else if regime.type = .VOLATILE then params.rsiOversold - 5
        else params.rsiOversold
      let sellThresh :=
        if regime.type = .TRENDING_UP then params.rsiOverbought + (5 + (trendOffset : ℚ))
        else if regime.type = .VOLATILE then params.rsiOverbought + 5
        else params.rsiOverbought
      if rsi < buyThresh then ⟨strategy, .BUY, 1⟩
      else if sellThresh < rsi then ⟨strategy, .SELL, -1⟩
      else ⟨strategy, .NEUTRAL, 0⟩
  | .BOLLINGER_BREAKOUT =>
      let sma := calculateSMA closes params.bbPeriod
      let slice := lastN closes params.bbPeriod
      let variance := (slice.map (fun b => (b - sma) ^ 2)).sum / (params.bbPeriod : ℚ)
      let stdDev := sq variance
      let upper := sma + stdDev * params.bbStdDev
      let lower := sma - stdDev * params.bbStdDev
      if currentPrice < lower then ⟨strategy, .BUY, 1⟩
      else if upper < currentPrice then ⟨strategy, .SELL, -1⟩
      else ⟨strategy, .NEUTRAL, 0⟩
  | .MACD_TREND =>
      let emaFast := calculateEMASeries closes params.macdFast
      let emaSlow := calculateEMASeries closes params.macdSlow
      let macdSeries := List.zipWith (fun a b => a - b) emaFast emaSlow
      let macdLine := (macdSeries.get? (macdSeries.length - 1)).getD 0
      let signalSeries := calculateEMASeries macdSeries params.macdSignal
      let signalLine := (signalSeries.get? (signalSeries.length - 1)).getD 0
      let hist := macdLine - signalLine
      if 0 < hist ∧ 0 < macdLine then ⟨strategy, .BUY, 0.7⟩
      else if hist < 0 ∧ macdLine < 0 then ⟨strategy, .SELL, -0.7⟩
      else ⟨strategy, .NEUTRAL, 0⟩
  | _ => ⟨strategy, .NEUTRAL, 0⟩

/-- Trend-following strategy types of auto-tuning rule 1
(`['MA_CROSSOVER', 'EMA_CROSSOVER', 'MACD_TREND'].includes`). -/
def isTrendFollowing : StrategyType → Bool
  | .MA_CROSSOVER | .EMA_CROSSOVER | .MACD_TREND => true
  | _ => false

/-- Mean-reversion strategy types of auto-tuning rule 2
(`['RSI_REVERSION', 'BOLLINGER_BREAKOUT'].includes`). -/
def isReversion : StrategyType → Bool
  | .RSI_REVERSION | .BOLLINGER_BREAKOUT => true
  | _ => false

/-- `regime.type.includes('TRENDING')`. -/
def isTrendingRegime : MarketRegimeType → Bool
  | .TRENDING_UP | .TRENDING_DOWN => true
  | _ => false

/-- The auto-tuning weight adjustment of the regime-aware composite
(the three multiplicative rules applied to `configItem.weight`,
followed by `parseFloat(adjustedWeight.toFixed(2))`). -/
def adjustWeight (regime : MarketRegime) (t : StrategyType) (w : ℚ) : ℚ :=
  let w1 :=
    if isTrendFollowing t then
      if isTrendingRegime regime.type then w * 1.5
      else if regime.type = .RANGING then w * 0.5
      else w
    else w
  let w2 :=
    if isReversion t then
      if regime.type = .RANGING then w1 * 1.5
      else if 70 < regime.trendStrength then w1 * 0.5
      else w1
    else w1
  let w3 :=
    if regime.type = .VOLATILE ∧ t = .MA_CROSSOVER then w2 * 0.7
    else w2
  round2 w3

/-- The `insights` array accumulated by the regime-aware composite: one
entry per enabled strategy, holding the `getStrategyInsight` snapshot
together with the base weight and the auto-tuned weight. -/
def regimeInsights (sq : ℚ → ℚ) (strategies : List StrategyConfigItem)
    (candles : List Candle) (activePositions : List Trade)
    (allMarketData : String → List Candle) (params : StrategyParameters)
    (regime : MarketRegime) : List StrategyInsight :=
  (strategies.filter (·.enabled)).map (fun s =>
    let raw := getStrategyInsight sq s.type candles activePositions allMarketData params regime
    (⟨raw.type, raw.signal, raw.rawScore, s.weight, adjustWeight regime s.type s.weight⟩ :
      StrategyInsight))

/-- `getCompositeStrategySignal` (second, regime-aware variant; named
`getCompositeStrategySignalRegime` here to avoid the clash between the
two source files): evaluates `getStrategyInsight` for each enabled
strategy, weighs the votes with the auto-tuned weights and thresholds
the normalized score at ±0.25. -/
def getCompositeStrategySignalRegime (sq : ℚ → ℚ)
    (strategies : List StrategyConfigItem) (candles : List Candle)
    (activePositions : List Trade) (allMarketData : String → List Candle)
    (params : StrategyParameters) : CompositeAnalysisResult :=
  let regime := analyzeMarketRegime sq candles
  let insights := regimeInsights sq strategies candles activePositions allMarketData params regime
  let totalScore := (insights.map (fun i => numericSignal i.signal * i.adjustedWeight)).sum
  let totalWeight := (insights.map (·.adjustedWeight)).sum
  let finalScore := if 0 < totalWeight then totalScore / totalWeight else 0
  ⟨if (0.25 : ℚ) < finalScore then .BUY
    else if finalScore < -0.25 then .SELL else .NEUTRAL,
   finalScore, regime, insights⟩

/-- The total weight accumulated by the plain composite: the sum of the
raw weights of the enabled strategies. -/
def compositeTotalWeight (strategies : List StrategyConfigItem) : ℚ :=
  ((strategies.filter (·.enabled)).map (·.weight)).sum

/-- The total weight accumulated by the regime-aware composite: the sum
of the auto-tuned weights of the enabled strategies. -/
def compositeTotalWeightRegime (sq : ℚ → ℚ)
    (strategies : List StrategyConfigItem) (candles : List Candle) : ℚ :=
  ((strategies.filter (·.enabled)).map (fun s =>
    adjustWeight (analyzeMarketRegime sq candles) s.type s.weight)).sum

/-! ## Concrete inputs used by witnesses and counterexamples -/

/-- Sample square-root stand-in used to instantiate the `sq` parameter
in closed statements (every theorem holds for all `sq`). -/
def wSq : ℚ → ℚ := fun _ => 0

/-- Empty all-assets table. -/
def wAmd : String → List Candle := fun _ => []

/-- Candle with a fixed volume of 100. -/
def wCandle (s : String) (c : ℚ) : Candle := ⟨s, c, 100⟩

/-- Sample parameter record: fast 1, slow 3, RSI 14/70/30, BB 20/2,
MACD 12/26/9, Martingale 1.5%/2.5%/×2. -/
def wParams : StrategyParameters :=
  ⟨1, 3, 14, 70, 30, 20, 2, 12, 26, 9, 1.5, 2.5, 2⟩

/-- Four ETH candles whose closes force an EMA(1)/EMA(3) golden cross. -/
def wEmaCandles : List Candle :=
  [wCandle "ETH" 10, wCandle "ETH" 10, wCandle "ETH" 1, wCandle "ETH" 20]

/-- Three ETH candles whose last two close-to-close moves are +1 and −3,
so RSI with period 2 is 25. -/
def wRsiCandles : List Candle :=
  [wCandle "ETH" 10, wCandle "ETH" 11, wCandle "ETH" 8]

/-- Two flat ETH candles. -/
def wFlat2 : List Candle := [wCandle "ETH" 5, wCandle "ETH" 5]

/-- Thirty flat ETH candles. -/
def wFlat30 : List Candle := List.replicate 30 (wCandle "ETH" 100)

/-- Thirty BTC candles: 25 at 1000 then 5 at 1010, so the 5-bar BTC
return is +1%. -/
def wBtc : List Candle :=
  List.replicate 25 (wCandle "BTC" 1000) ++ List.replicate 5 (wCandle "BTC" 1010)

/-- All-assets table holding exactly the BTC history `wBtc`. -/
def wAmdBtc : String → List Candle := fun s => if s = "BTC" then wBtc else []

/-- Six flat ETH candles (5-bar return 0). -/
def wAsset6 : List Candle := List.replicate 6 (wCandle "ETH" 500)

/-! ## Helper lemmas -/

theorem emaSeriesTail_length (k p : ℚ) (l : List ℚ) :
    (emaSeriesTail k p l).length = l.length := by
  induction l generalizing p with
  | nil => rfl
  | cons x xs ih => simp [emaSeriesTail, ih]

theorem emaSeriesTail_getD (k : ℚ) (l : List ℚ) (p : ℚ) (j : ℕ) (hj : j < l.length) :
    (emaSeriesTail k p l).getD j 0 =
      l.getD j 0 * k + ((p :: emaSeriesTail k p l).getD j 0) * (1 - k) := by
  induction l generalizing p j with
  | nil => simp at hj
  | cons x xs ih =>
    cases j with
    | zero => simp [emaSeriesTail]
    | succ j =>
      simp only [emaSeriesTail, List.getD_cons_succ]
      exact ih (x * k + p * (1 - k)) j (by simpa using hj)

theorem emaSeriesTail_const (k c : ℚ) (n : ℕ) :
    emaSeriesTail k c (List.replicate n c) = List.replicate n c := by
  induction n with
  | zero => rfl
  | succ n ih =>
    simp only [List.replicate, emaSeriesTail]
    rw [show c * k + c * (1 - k) = c by ring]
    rw [ih]

theorem diffsOf_const (l : List ℚ) (v : ℚ) (hl : ∀ x ∈ l, x = v) :
    ∀ d ∈ diffsOf l, d = 0 := by
  induction l with
  | nil => simp [diffsOf]
  | cons a t ih =>
    cases t with
    | nil => simp [diffsOf]
    | cons b t2 =>
      intro d hd
      simp only [diffsOf, List.mem_cons] at hd
      rcases hd with h | h
      · have ha : a = v := hl a (by simp)
        have hb : b = v := hl b (by simp)
        rw [h, ha, hb]; ring
      · exact ih (fun x hx => hl x (List.mem_cons_of_mem a hx)) d h

/-- Core of the RSI computation: gains and losses of the last window. -/
theorem calculateRSI_eq_100 (candles : List Candle) (period : ℕ)
    (hlen : period + 1 ≤ candles.length)
    (hpos : ∀ d ∈ diffsOf ((candles.map (·.close)).drop
        ((candles.map (·.close)).length - (period + 1))), 0 ≤ d) :
    calculateRSI candles period = 100 := by
  have hnot : ¬candles.length < period + 1 := not_lt.mpr hlen
  simp only [calculateRSI, if_neg hnot]
  have hzero : ((diffsOf ((candles.map (·.close)).drop
      ((candles.map (·.close)).length - (period + 1)))).map
      (fun d => if 0 ≤ d then 0 else -d)).sum = (0 : ℚ) := by
    apply List.sum_eq_zero
    intro x hx
    simp only [List.mem_map] at hx
    obtain ⟨d, hd, hxd⟩ := hx
    rw [← hxd, if_pos (hpos d hd)]
  rw [hzero]
  simp

theorem rsi_bounds (candles : List Candle) (period : ℕ) :
    0 ≤ calculateRSI candles period ∧ calculateRSI candles period ≤ 100 := by
  by_cases hshort : candles.length < period + 1
  · simp only [calculateRSI, if_pos hshort]
    norm_num
  · simp only [calculateRSI, if_neg hshort]
    set ds := diffsOf ((candles.map (·.close)).drop
      ((candles.map (·.close)).length - (period + 1))) with hds
    have hg : 0 ≤ (ds.map (fun d => if 0 ≤ d then d else 0)).sum := by
      apply List.sum_nonneg
      intro x hx
      simp only [List.mem_map] at hx
      obtain ⟨d, _, hxd⟩ := hx
      rw [← hxd]
      by_cases hd0 : 0 ≤ d <;> simp [hd0]
    have hl : 0 ≤ (ds.map (fun d => if 0 ≤ d then 0 else -d)).sum := by
      apply List.sum_nonneg
      intro x hx
      simp only [List.mem_map] at hx
      obtain ⟨d, _, hxd⟩ := hx
      rw [← hxd]
      by_cases hd0 : 0 ≤ d
      · simp [hd0]
      · simp only [if_neg hd0, neg_nonneg]
        linarith [not_le.mp hd0]
    set gains := (ds.map (fun d => if 0 ≤ d then d else 0)).sum
    set losses := (ds.map (fun d => if 0 ≤ d then 0 else -d)).sum
    by_cases hz : losses = 0
    · simp only [if_pos hz]
      norm_num
    · simp only [if_neg hz]
      have hlpos : 0 < losses := lt_of_le_of_ne hl (Ne.symm hz)
      have hrs : 0 ≤ gains / losses := div_nonneg hg hl
      have h1 : (0:ℚ) < 1 + gains / losses := by linarith
      constructor
      · have hle : 100 / (1 + gains / losses) ≤ 100 := by
          rw [div_le_iff₀ h1]; nlinarith
        linarith
      · have hpos2 : 0 < 100 / (1 + gains / losses) := by positivity
        linarith

theorem round2_nonneg (x : ℚ) (hx : 0 ≤ x) : 0 ≤ round2 x := by
  unfold round2
  have h : (0 : ℤ) ≤ round (x * 100) := by
    rw [round_eq]
    exact Int.le_floor.mpr (by push_cast; linarith)
  positivity

theorem round2_pos (x : ℚ) (hx : 7/40 ≤ x) : 0 < round2 x := by
  unfold round2
  have h : (1 : ℤ) ≤ round (x * 100) := by
    rw [round_eq]
    exact Int.le_floor.mpr (by push_cast; linarith)
  have : (1 : ℚ) ≤ (round (x * 100) : ℤ) := by exact_mod_cast h
  linarith

theorem round2_int_hundredths (n : ℤ) : round2 ((n : ℚ) / 100) = (n : ℚ) / 100 := by
  unfold round2
  rw [div_mul_cancel₀ _ (by norm_num : (100:ℚ) ≠ 0), round_intCast]

theorem adjustWeight_nonneg (regime : MarketRegime) (t : StrategyType) (w : ℚ)
    (hw : 0 ≤ w) : 0 ≤ adjustWeight regime t w := by
  unfold adjustWeight
  apply round2_nonneg
  split_ifs <;> nlinarith

theorem adjustWeight_pos (regime : MarketRegime) (t : StrategyType) (w : ℚ)
    (hw : 1 ≤ w) : 0 < adjustWeight regime t w := by
  unfold adjustWeight
  apply round2_pos
  split_ifs <;> nlinarith

theorem numericSignal_bounds (s : Signal) :
    -1 ≤ numericSignal s ∧ numericSignal s ≤ 1 := by
  cases s <;> simp [numericSignal]

/-- Weighted vote sums are bounded by the weight sum when weights are
non-negative and votes lie in [-1, 1]. -/
theorem vote_sum_bounds {α : Type} (l : List α) (v w : α → ℚ)
    (hv : ∀ x ∈ l, -1 ≤ v x ∧ v x ≤ 1) (hw : ∀ x ∈ l, 0 ≤ w x) :
    -((l.map w).sum) ≤ (l.map (fun x => v x * w x)).sum ∧
      (l.map (fun x => v x * w x)).sum ≤ (l.map w).sum := by
  induction l with
  | nil => simp
  | cons a t ih =>
    have hva := hv a (by simp)
    have hwa := hw a (by simp)
    have iht := ih (fun x hx => hv x (List.mem_cons_of_mem a hx))
      (fun x hx => hw x (List.mem_cons_of_mem a hx))
    simp only [List.map_cons, List.sum_cons]
    constructor <;> nlinarith [iht.1, iht.2, hva.1, hva.2]

/-- A sum of positive entries is zero only for the empty list. -/
theorem pos_sum_eq_zero_iff {α : Type} (l : List α) (f : α → ℚ)
    (hf : ∀ x ∈ l, 0 < f x) : (l.map f).sum = 0 ↔ l = [] := by
  induction l with
  | nil => simp
  | cons a t ih =>
    simp only [List.map_cons, List.sum_cons]
    have ha := hf a (by simp)
    have ht : 0 ≤ (t.map f).sum := by
      apply List.sum_nonneg
      intro x hx
      simp only [List.mem_map] at hx
      obtain ⟨y, hy, hxy⟩ := hx
      rw [← hxy]
      exact (hf y (List.mem_cons_of_mem a hy)).le
    constructor
    · intro h
      exfalso; nlinarith
    · intro h; simp at h

/-! ## Claims -/

/-- C9: `calculateEMASeries` returns a list of the same length as the
input (empty for empty input), its first element equals the first input
value, each later element satisfies
`ema[i] = data[i]*k + ema[i-1]*(1-k)` with `k = 2/(period+1)`, and on a
constant-valued input list every output element equals that constant. -/
theorem claim_C9_ema_series (data : List ℚ) (period : ℕ) :
    (calculateEMASeries data period).length = data.length
    ∧ calculateEMASeries ([] : List ℚ) period = []
    ∧ (calculateEMASeries data period).head? = data.head?
    ∧ (∀ i : ℕ, 1 ≤ i → i < data.length →
        (calculateEMASeries data period).getD i 0 =
          data.getD i 0 * (2 / ((period : ℚ) + 1)) +
            (calculateEMASeries data period).getD (i - 1) 0 *
              (1 - 2 / ((period : ℚ) + 1)))
    ∧ (∀ c : ℚ, ∀ n : ℕ,
        calculateEMASeries (List.replicate n c) period = List.replicate n c) := by
  refine ⟨?_, rfl, ?_, ?_, ?_⟩
  · cases data with
    | nil => rfl
    | cons x xs => simp [calculateEMASeries, emaSeriesTail_length]
  · cases data with
    | nil => rfl
    | cons x xs => simp [calculateEMASeries]
  · intro i h1 hlen
    cases data with
    | nil => simp at hlen
    | cons x xs =>
      obtain ⟨j, rfl⟩ : ∃ j, i = j + 1 := ⟨i - 1, (Nat.succ_pred_eq_of_pos h1).symm⟩
      simp only [calculateEMASeries, List.getD_cons_succ, Nat.add_sub_cancel]
      exact emaSeriesTail_getD (2 / ((period : ℚ) + 1)) xs x j (by simpa using hlen)
  · intro c n
    cases n with
    | zero => rfl
    | succ m =>
      simp only [List.replicate, calculateEMASeries]
      rw [emaSeriesTail_const]

/-- C9 witness: at `data = [1, 2]`, `period = 3` the recurrence holds at
index 1, and the EMA series of five constant values is constant. -/
theorem claim_C9_ema_series_witness :
    (1 ≤ 1 ∧ 1 < ([1, 2] : List ℚ).length)
    ∧ (calculateEMASeries [1, 2] 3).getD 1 0 =
        ([1, 2] : List ℚ).getD 1 0 * (2 / ((3 : ℚ) + 1)) +
          (calculateEMASeries [1, 2] 3).getD 0 0 * (1 - 2 / ((3 : ℚ) + 1))
    ∧ calculateEMASeries (List.replicate 5 (7 : ℚ)) 3 = List.replicate 5 7 := by
  refine ⟨⟨le_refl 1, by norm_num⟩, ?_, ?_⟩
  · exact (claim_C9_ema_series [1, 2] 3).2.2.2.1 1 (le_refl 1) (by norm_num)
  · exact (claim_C9_ema_series [1, 2] 3).2.2.2.2 7 5

/-- C6: `calculateRSI` always lies in [0, 100]; with at least
`period + 1` candles and only non-negative close-to-close deltas in the
window it is exactly 100; with fewer than `period + 1` candles it is
exactly 50. -/
theorem claim_C6_rsi_range (candles : List Candle) (period : ℕ) :
    (0 ≤ calculateRSI candles period ∧ calculateRSI candles period ≤ 100)
    ∧ (candles.length < period + 1 → calculateRSI candles period = 50)
    ∧ (period + 1 ≤ candles.length →
        (∀ d ∈ diffsOf ((candles.map (·.close)).drop
            ((candles.map (·.close)).length - (period + 1))), 0 ≤ d) →
        calculateRSI candles period = 100) := by
  refine ⟨rsi_bounds candles period, ?_, ?_⟩
  · intro h
    simp only [calculateRSI, if_pos h]
  · intro hlen hpos
    exact calculateRSI_eq_100 candles period hlen hpos

/-- C6 witness: empty input with period 3 gives 50; two flat candles
with period 1 have a single, zero delta and give 100. -/
theorem claim_C6_rsi_range_witness :
    (([] : List Candle).length < 3 + 1)
    ∧ calculateRSI [] 3 = 50
    ∧ (1 + 1 ≤ wFlat2.length)
    ∧ (∀ d ∈ diffsOf ((wFlat2.map (·.close)).drop
        ((wFlat2.map (·.close)).length - (1 + 1))), 0 ≤ d)
    ∧ calculateRSI wFlat2 1 = 100 := by
  have hd : ∀ d ∈ diffsOf ((wFlat2.map (·.close)).drop
      ((wFlat2.map (·.close)).length - (1 + 1))), 0 ≤ d := by
    simp [wFlat2, wCandle, diffsOf]
  refine ⟨by norm_num, (claim_C6_rsi_range [] 3).2.1 (by norm_num), by
    norm_num [wFlat2], hd, (claim_C6_rsi_range wFlat2 1).2.2 (by norm_num [wFlat2]) hd⟩

/-- C10 (amended): on a flat candle sequence of length at least
`rsiPeriod + 1` the RSI is exactly 100 (zero deltas count as gains), and
the RSI-reversion strategy then signals SELL provided the overbought
threshold is below 100 AND the oversold threshold is at most 100 (with
an oversold threshold above 100 the BUY branch fires first). -/
theorem claim_C10_flat_rsi (sq : ℚ → ℚ) (candles : List Candle)
    (positions : List Trade) (amd : String → List Candle)
    (params : StrategyParameters) (v : ℚ)
    (hflat : ∀ c ∈ candles, c.close = v)
    (hlen : params.rsiPeriod + 1 ≤ candles.length) :
    calculateRSI candles params.rsiPeriod = 100
    ∧ (params.rsiOversold ≤ 100 → params.rsiOverbought < 100 →
        getStrategySignal sq .RSI_REVERSION candles positions amd params = .SELL) := by
  have h100 : calculateRSI candles params.rsiPeriod = 100 := by
    apply calculateRSI_eq_100 candles params.rsiPeriod hlen
    intro d hd
    have hconst : ∀ x ∈ (candles.map (·.close)).drop
        ((candles.map (·.close)).length - (params.rsiPeriod + 1)), x = v := by
      intro x hx
      have hx2 : x ∈ candles.map (·.close) := List.mem_of_mem_drop hx
      simp only [List.mem_map] at hx2
      obtain ⟨c, hc, hcx⟩ := hx2
      rw [← hcx]
      exact hflat c hc
    rw [diffsOf_const _ v hconst d hd]
  refine ⟨h100, fun hov hob => ?_⟩
  simp only [getStrategySignal, rsiReversionSignal, h100]
  rw [if_neg (by linarith), if_pos hob]

/-- C10 counterexample: two flat candles, period 1, oversold 101,
overbought 90 — the claim as stated promises SELL (overbought < 100) but
the code returns BUY because RSI = 100 < oversold. -/
theorem claim_C10_flat_rsi_counterexample :
    calculateRSI wFlat2 1 = 100
    ∧ getStrategySignal wSq .RSI_REVERSION wFlat2 [] wAmd
        { wParams with rsiPeriod := 1, rsiOversold := 101, rsiOverbought := 90 } = .BUY := by
  constructor
  · norm_num [calculateRSI, diffsOf, wFlat2, wCandle]
  · norm_num [getStrategySignal, rsiReversionSignal, calculateRSI, diffsOf,
      wFlat2, wCandle, wParams]

/-- C10 witness: two flat candles with the default thresholds
(oversold 30 ≤ 100, overbought 70 < 100) give RSI 100 and signal SELL. -/
theorem claim_C10_flat_rsi_witness :
    (∀ c ∈ wFlat2, c.close = 5)
    ∧ ({ wParams with rsiPeriod := 1 } : StrategyParameters).rsiPeriod + 1 ≤ wFlat2.length
    ∧ (calculateRSI wFlat2 1 = 100
        ∧ getStrategySignal wSq .RSI_REVERSION wFlat2 [] wAmd
            { wParams with rsiPeriod := 1 } = .SELL) := by
  have hflat : ∀ c ∈ wFlat2, c.close = 5 := by simp [wFlat2, wCandle]
  have hlen : ({ wParams with rsiPeriod := 1 } : StrategyParameters).rsiPeriod + 1 ≤
      wFlat2.length := by norm_num [wFlat2, wParams]
  have h := claim_C10_flat_rsi wSq wFlat2 [] wAmd { wParams with rsiPeriod := 1 } 5 hflat hlen
  exact ⟨hflat, hlen, h.1, h.2 (by norm_num [wParams]) (by norm_num [wParams])⟩

/-- C2 (amended): on candle sequences shorter than the strategy's
minimum length, MA Crossover (`slowPeriod + 5`), EMA Crossover
(`slowPeriod + 1`), Bollinger Breakout (`bbPeriod`), MACD Trend
(`macdSlow + macdSignal`) and Correlation Arbitrage (30 reference
candles) return NEUTRAL for every parameter record; RSI Reversion
(`rsiPeriod + 1`) additionally needs `rsiOversold ≤ 50 ≤ rsiOverbought`,
because its insufficient-data sentinel 50 is compared against the
configured thresholds. -/
theorem claim_C2_short_neutral (sq : ℚ → ℚ) (params : StrategyParameters)
    (candles : List Candle) (positions : List Trade)
    (amd : String → List Candle) :
    (candles.length < params.slowPeriod + 5 →
      getStrategySignal sq .MA_CROSSOVER candles positions amd params = .NEUTRAL)
    ∧ (candles.length < params.slowPeriod + 1 →
      getStrategySignal sq .EMA_CROSSOVER candles positions amd params = .NEUTRAL)
    ∧ (candles.length < params.rsiPeriod + 1 →
      params.rsiOversold ≤ 50 → 50 ≤ params.rsiOverbought →
      getStrategySignal sq .RSI_REVERSION candles positions amd params = .NEUTRAL)
    ∧ (candles.length < params.bbPeriod →
      getStrategySignal sq .BOLLINGER_BREAKOUT candles positions amd params = .NEUTRAL)
    ∧ (candles.length < params.macdSlow + params.macdSignal →
      getStrategySignal sq .MACD_TREND candles positions amd params = .NEUTRAL)
    ∧ ((amd "BTC").length < 30 →
      getStrategySignal sq .ARBITRAGE candles positions amd params = .NEUTRAL) := by
  refine ⟨?_, ?_, ?_, ?_, ?_, ?_⟩
  · intro h
    simp only [getStrategySignal, maCrossoverSignal]
    rw [if_pos (by simpa using h)]
  · intro h
    simp only [getStrategySignal, emaCrossoverSignal]
    rw [if_pos (by simpa using h)]
  · intro h hov hob
    have h50 : calculateRSI candles params.rsiPeriod = 50 := by
      simp only [calculateRSI, if_pos h]
    simp only [getStrategySignal, rsiReversionSignal, h50]
    rw [if_neg (by linarith), if_neg (by linarith)]
  · intro h
    have hb : calculateBollingerBands sq candles params.bbPeriod params.bbStdDev =
        ⟨0, 0, 0⟩ := by
      simp only [calculateBollingerBands]
      rw [if_pos (by simpa using h)]
    simp only [getStrategySignal, bollingerSignal, hb]
    rfl
  · intro h
    have hm : calculateMACD candles params.macdFast params.macdSlow params.macdSignal =
        ⟨some 0, some 0, some 0, some 0⟩ := by
      simp only [calculateMACD]
      rw [if_pos (by simpa using h)]
    simp only [getStrategySignal, macdTrendSignal, hm]
    rfl
  · intro h
    simp only [getStrategySignal, arbitrageSignal]
    rw [if_pos h]

/-- C2 counterexample: with an oversold threshold of 60 and an empty
candle list (shorter than `rsiPeriod + 1`), RSI Reversion returns BUY
(sentinel 50 < 60), not the NEUTRAL the claim promises for every
parameter record. -/
theorem claim_C2_short_neutral_counterexample :
    ([] : List Candle).length < wParams.rsiPeriod + 1
    ∧ getStrategySignal wSq .RSI_REVERSION [] [] wAmd
        { wParams with rsiOversold := 60 } = .BUY := by
  constructor
  · norm_num [wParams]
  · norm_num [getStrategySignal, rsiReversionSignal, calculateRSI, wParams]

/-- C2 witness: with the sample parameters and an empty candle list
(and an empty BTC history for arbitrage) all six strategies return
NEUTRAL. -/
theorem claim_C2_short_neutral_witness :
    (([] : List Candle).length < wParams.slowPeriod + 5
      ∧ ([] : List Candle).length < wParams.slowPeriod + 1
      ∧ ([] : List Candle).length < wParams.rsiPeriod + 1
      ∧ wParams.rsiOversold ≤ 50 ∧ 50 ≤ wParams.rsiOverbought
      ∧ ([] : List Candle).length < wParams.bbPeriod
      ∧ ([] : List Candle).length < wParams.macdSlow + wParams.macdSignal
      ∧ (wAmd "BTC").length < 30)
    ∧ getStrategySignal wSq .MA_CROSSOVER [] [] wAmd wParams = .NEUTRAL
    ∧ getStrategySignal wSq .EMA_CROSSOVER [] [] wAmd wParams = .NEUTRAL
    ∧ getStrategySignal wSq .RSI_REVERSION [] [] wAmd wParams = .NEUTRAL
    ∧ getStrategySignal wSq .BOLLINGER_BREAKOUT [] [] wAmd wParams = .NEUTRAL
    ∧ getStrategySignal wSq .MACD_TREND [] [] wAmd wParams = .NEUTRAL
    ∧ getStrategySignal wSq .ARBITRAGE [] [] wAmd wParams = .NEUTRAL := by
  have h := claim_C2_short_neutral wSq wParams [] [] wAmd
  refine ⟨⟨?_, ?_, ?_, ?_, ?_, ?_, ?_, ?_⟩, ?_, ?_, ?_, ?_, ?_, ?_⟩
  · norm_num [wParams]
  · norm_num [wParams]
  · norm_num [wParams]
  · norm_num [wParams]
  · norm_num [wParams]
  · norm_num [wParams]
  · norm_num [wParams]
  · norm_num [wAmd]
  · exact h.1 (by norm_num [wParams])
  · exact h.2.1 (by norm_num [wParams])
  · exact h.2.2.1 (by norm_num [wParams]) (by norm_num [wParams]) (by norm_num [wParams])
  · exact h.2.2.2.1 (by norm_num [wParams])
  · exact h.2.2.2.2.1 (by norm_num [wParams])
  · exact h.2.2.2.2.2 (by norm_num [wAmd])

/-- C4: `analyzeMarketRegime` is total and deterministic: under 30
candles it returns RANGING with zero scores and the insufficient-data
description; with at least 30 candles it returns VOLATILE exactly when
the volatility score exceeds 60, otherwise TRENDING_UP/TRENDING_DOWN
(by SMA(7) > SMA(25) or not) exactly when the trend score exceeds 20,
and RANGING in the remaining cases. -/
theorem claim_C4_regime_classification (sq : ℚ → ℚ) (candles : List Candle) :
    (candles.length < 30 →
      analyzeMarketRegime sq candles = ⟨.RANGING, 0, 0, "Insufficient Data"⟩)
    ∧ (30 ≤ candles.length →
      ((analyzeMarketRegime sq candles).type = .VOLATILE ↔
        60 < (analyzeMarketRegime sq candles).volatility)
      ∧ ((analyzeMarketRegime sq candles).type = .TRENDING_UP ↔
        ¬60 < (analyzeMarketRegime sq candles).volatility
          ∧ 20 < (analyzeMarketRegime sq candles).trendStrength
          ∧ calculateSMA (candles.map (·.close)) 25 < calculateSMA (candles.map (·.close)) 7)
      ∧ ((analyzeMarketRegime sq candles).type = .TRENDING_DOWN ↔
        ¬60 < (analyzeMarketRegime sq candles).volatility
          ∧ 20 < (analyzeMarketRegime sq candles).trendStrength
          ∧ calculateSMA (candles.map (·.close)) 7 ≤ calculateSMA (candles.map (·.close)) 25)
      ∧ ((analyzeMarketRegime sq candles).type = .RANGING ↔
        ¬60 < (analyzeMarketRegime sq candles).volatility
          ∧ ¬20 < (analyzeMarketRegime sq candles).trendStrength)) := by
  constructor
  · intro h
    simp only [analyzeMarketRegime, if_pos h]
  · intro h
    have hnot : ¬candles.length < 30 := not_lt.mpr h
    simp only [analyzeMarketRegime, if_neg hnot]
    split_ifs with h1 h2 h3 <;> simp_all

/-- C4 witness: thirty flat candles meet the length precondition; the
classification conjunction holds there, and the regime concretely
evaluates to RANGING with zero volatility and zero trend strength. -/
theorem claim_C4_regime_classification_witness :
    30 ≤ wFlat30.length
    ∧ analyzeMarketRegime wSq wFlat30 = ⟨.RANGING, 0, 0, "横盘整理 (Consolidation)"⟩
    ∧ ((analyzeMarketRegime wSq wFlat30).type = .VOLATILE ↔
        60 < (analyzeMarketRegime wSq wFlat30).volatility)
    ∧ ((analyzeMarketRegime wSq wFlat30).type = .RANGING ↔
        ¬60 < (analyzeMarketRegime wSq wFlat30).volatility
          ∧ ¬20 < (analyzeMarketRegime wSq wFlat30).trendStrength) := by
  have hlen : 30 ≤ wFlat30.length := by norm_num [wFlat30]
  have h := (claim_C4_regime_classification wSq wFlat30).2 hlen
  refine ⟨hlen, ?_, h.1, h.2.2.2⟩
  norm_num [analyzeMarketRegime, calculateStdDev, popVariance, meanQ, calculateSMA,
    lastN, diffRatios, wSq, wFlat30, wCandle, List.replicate]

/-- C5 (amended): for every non-negative base weight, strategy type and
regime the auto-tuned weight is non-negative and rounded to two decimal
places; for the strategy types matching none of the three rules
(Martingale and Correlation Arbitrage) the adjusted weight equals the
base weight ROUNDED TO TWO DECIMALS — hence equals the base weight
exactly whenever the base weight is an integer number of hundredths
(the 1–10 integer weights in particular), but not for e.g. 1/3. -/
theorem claim_C5_adjust_weight (regime : MarketRegime) (t : StrategyType) (w : ℚ)
    (hw : 0 ≤ w) :
    0 ≤ adjustWeight regime t w
    ∧ (t = .MARTINGALE ∨ t = .ARBITRAGE → adjustWeight regime t w = round2 w)
    ∧ (t = .MARTINGALE ∨ t = .ARBITRAGE → (∃ n : ℤ, w = (n : ℚ) / 100) →
        adjustWeight regime t w = w) := by
  have hunmatched : t = .MARTINGALE ∨ t = .ARBITRAGE →
      adjustWeight regime t w = round2 w := by
    rintro (rfl | rfl) <;>
      simp [adjustWeight, isTrendFollowing, isReversion]
  refine ⟨adjustWeight_nonneg regime t w hw, hunmatched, ?_⟩
  rintro hu ⟨n, rfl⟩
  rw [hunmatched hu, round2_int_hundredths]

/-- C5 counterexample: a Martingale entry with base weight 1/3 comes out
of the regime-aware composite with adjusted weight 0.33 ≠ 1/3, so the
adjusted weight of an unmatched strategy type does NOT always equal the
base weight exactly. -/
theorem claim_C5_adjust_weight_counterexample :
    (getCompositeStrategySignalRegime wSq [⟨.MARTINGALE, true, 1/3⟩] [] [] wAmd
        wParams).insights.map (·.adjustedWeight) = [33/100]
    ∧ ((1 : ℚ) / 3 ≠ 33 / 100) := by
  constructor
  · simp [getCompositeStrategySignalRegime, regimeInsights, getStrategyInsight,
      analyzeMarketRegime, adjustWeight, isTrendFollowing, isReversion,
      isTrendingRegime, round2, round_eq, wAmd, wParams]
    norm_num [Int.floor_eq_iff]
  · norm_num

/-- C5 witness: base weight 2 (non-negative), Martingale, an arbitrary
concrete regime — the adjusted weight is non-negative and, since 2 is an
integer number of hundredths, exactly 2. -/
theorem claim_C5_adjust_weight_witness :
    (0 : ℚ) ≤ 2
    ∧ (0 ≤ adjustWeight ⟨.RANGING, 0, 0, "r"⟩ .MARTINGALE 2
        ∧ adjustWeight ⟨.RANGING, 0, 0, "r"⟩ .MARTINGALE 2 = round2 2
        ∧ adjustWeight ⟨.RANGING, 0, 0, "r"⟩ .MARTINGALE 2 = 2) := by
  have h := claim_C5_adjust_weight ⟨.RANGING, 0, 0, "r"⟩ .MARTINGALE 2 (by norm_num)
  exact ⟨by norm_num, h.1, h.2.1 (Or.inl rfl),
    h.2.2 (Or.inl rfl) ⟨200, by norm_num⟩⟩

/-- C7: the Martingale evaluator filters open positions to the candles'
asset; with none it signals BUY exactly when RSI < oversold + 10 (else
NEUTRAL); with open positions it signals BUY exactly when the change
from the most recent entry price is below −priceDrop%, else SELL exactly
when the current price exceeds the volume-weighted average entry by more
than profitTarget%, else NEUTRAL — the add-on-drop check precedes the
take-profit check. -/
theorem claim_C7_martingale (sq : ℚ → ℚ) (params : StrategyParameters)
    (candles : List Candle) (positions : List Trade)
    (amd : String → List Candle) :
    (martinPositions candles positions = [] →
      ((getStrategySignal sq .MARTINGALE candles positions amd params = .BUY ↔
          calculateRSI candles params.rsiPeriod < params.rsiOversold + 10)
        ∧ (getStrategySignal sq .MARTINGALE candles positions amd params = .NEUTRAL ↔
          ¬calculateRSI candles params.rsiPeriod < params.rsiOversold + 10)
        ∧ getStrategySignal sq .MARTINGALE candles positions amd params ≠ .SELL))
    ∧ (∀ p ps, martinPositions candles positions = p :: ps →
      ((getStrategySignal sq .MARTINGALE candles positions amd params = .BUY ↔
          ((candles.map (·.close)).getLast?.getD 0 -
              ((p :: ps).getLast (List.cons_ne_nil p ps)).price) /
            ((p :: ps).getLast (List.cons_ne_nil p ps)).price <
            -(params.martingalePriceDrop / 100))
        ∧ (getStrategySignal sq .MARTINGALE candles positions amd params = .SELL ↔
          (¬((candles.map (·.close)).getLast?.getD 0 -
                ((p :: ps).getLast (List.cons_ne_nil p ps)).price) /
              ((p :: ps).getLast (List.cons_ne_nil p ps)).price <
              -(params.martingalePriceDrop / 100))
            ∧ params.martingaleProfitTarget / 100 <
              ((candles.map (·.close)).getLast?.getD 0 -
                  ((p :: ps).map (fun q => q.amount * q.price)).sum /
                    ((p :: ps).map (·.amount)).sum) /
                (((p :: ps).map (fun q => q.amount * q.price)).sum /
                  ((p :: ps).map (·.amount)).sum))
        ∧ (getStrategySignal sq .MARTINGALE candles positions amd params = .NEUTRAL ↔
          (¬((candles.map (·.close)).getLast?.getD 0 -
                ((p :: ps).getLast (List.cons_ne_nil p ps)).price) /
              ((p :: ps).getLast (List.cons_ne_nil p ps)).price <
              -(params.martingalePriceDrop / 100))
            ∧ ¬params.martingaleProfitTarget / 100 <
              ((candles.map (·.close)).getLast?.getD 0 -
                  ((p :: ps).map (fun q => q.amount * q.price)).sum /
                    ((p :: ps).map (·.amount)).sum) /
                (((p :: ps).map (fun q => q.amount * q.price)).sum /
                  ((p :: ps).map (·.amount)).sum)))) := by
  constructor
  · intro h
    simp only [getStrategySignal, martingaleSignal, h]
    split_ifs with hc <;> simp [hc]
  · intro p ps h
    simp only [getStrategySignal, martingaleSignal, h]
    split_ifs with h1 h2
    · exact ⟨iff_of_true rfl h1,
        iff_of_false (by simp) (fun hc => hc.1 h1),
        iff_of_false (by simp) (fun hc => hc.1 h1)⟩
    · exact ⟨iff_of_false (by simp) h1,
        iff_of_true rfl ⟨h1, h2⟩,
        iff_of_false (by simp) (fun hc => hc.2 h2)⟩
    · exact ⟨iff_of_false (by simp) h1,
        iff_of_false (by simp) (fun hc => h2 hc.2),
        iff_of_true rfl ⟨h1, h2⟩⟩

/-- C7 witness: three candles give RSI(2) = 25 and there are no open
positions, so with oversold 30 the Martingale entry branch fires BUY
(25 < 30 + 10), matching the spec scenario. -/
theorem claim_C7_martingale_witness :
    martinPositions wRsiCandles [] = []
    ∧ calculateRSI wRsiCandles 2 = 25
    ∧ getStrategySignal wSq .MARTINGALE wRsiCandles [] wAmd
        { wParams with rsiPeriod := 2 } = .BUY := by
  have hsp : martinPositions wRsiCandles [] = [] := by simp [martinPositions]
  have h := (claim_C7_martingale wSq { wParams with rsiPeriod := 2 }
    wRsiCandles [] wAmd).1 hsp
  refine ⟨hsp, ?_, ?_⟩
  · norm_num [calculateRSI, diffsOf, wRsiCandles, wCandle]
  · exact h.1.mpr (by norm_num [calculateRSI, diffsOf, wRsiCandles, wCandle, wParams])

theorem jsIdx_mem {l : List ℚ} {i : ℤ} {x : ℚ} (h : jsIdx l i = some x) : x ∈ l := by
  unfold jsIdx at h
  split at h
  · exact absurd h (by simp)
  · exact List.get?_mem h

theorem arbBtcReturns_length (l : List ℚ) :
    (arbBtcReturns l).length = l.length - max 1 (l.length - 20) := by
  simp [arbBtcReturns]

theorem lastN_length (l : List ℚ) (n : ℕ) :
    (lastN l n).length = l.length - (l.length - n) := by
  simp [lastN]


/-- C8: Correlation Arbitrage returns NEUTRAL whenever a precondition
fails (BTC reference history shorter than 30 candles, the asset symbol
absent-or-empty — the falsy `!symbol` guard — or equal to BTC itself, or
the latest volume under 40% of the trailing-20-bar average volume); when
the preconditions hold (stated for positive closes, a non-empty asset
symbol, and the 5-bars-back prices `pb`, `pa` existing) it returns BUY
exactly when the BTC 5-bar return exceeds `max(0.35%, 1.5·stddev·√5)`
while the asset's 5-bar return is below half the BTC return, SELL in the
mirrored downward case, and NEUTRAL otherwise. -/
theorem claim_C8_arbitrage (sq : ℚ → ℚ) (params : StrategyParameters)
    (candles : List Candle) (positions : List Trade)
    (amd : String → List Candle) (c0 : Candle)
    (hhead : candles.head? = some c0)
    (hlen : 6 ≤ candles.length)
    (hposa : ∀ c ∈ candles, 0 < c.close)
    (hposb : ∀ c ∈ amd "BTC", 0 < c.close) :
    (((amd "BTC").length < 30 ∨ c0.symbol = "" ∨ c0.symbol = "BTC" ∨
        (candles.map (·.volume)).getLast?.getD 0 <
          (lastN (candles.map (·.volume)) 20).sum /
            ((lastN (candles.map (·.volume)) 20).length : ℚ) * 0.4) →
      getStrategySignal sq .ARBITRAGE candles positions amd params = .NEUTRAL)
    ∧ (30 ≤ (amd "BTC").length → c0.symbol ≠ "" → c0.symbol ≠ "BTC" →
        ¬(candles.map (·.volume)).getLast?.getD 0 <
          (lastN (candles.map (·.volume)) 20).sum /
            ((lastN (candles.map (·.volume)) 20).length : ℚ) * 0.4 →
        ∀ pb pa,
        jsIdx ((amd "BTC").map (·.close))
          ((((amd "BTC").map (·.close)).length : ℤ) - 1 - 5) = some pb →
        jsIdx (candles.map (·.close))
          (((candles.map (·.close)).length : ℤ) - 1 - 5) = some pa →
        ((getStrategySignal sq .ARBITRAGE candles positions amd params = .BUY ↔
            arbThreshold sq ((amd "BTC").map (·.close)) <
              arbReturnOf ((amd "BTC").map (·.close)) pb
            ∧ arbReturnOf (candles.map (·.close)) pa <
              arbReturnOf ((amd "BTC").map (·.close)) pb * 0.5)
          ∧ (getStrategySignal sq .ARBITRAGE candles positions amd params = .SELL ↔
            arbReturnOf ((amd "BTC").map (·.close)) pb <
              -arbThreshold sq ((amd "BTC").map (·.close))
            ∧ arbReturnOf ((amd "BTC").map (·.close)) pb * 0.5 <
              arbReturnOf (candles.map (·.close)) pa)
          ∧ (getStrategySignal sq .ARBITRAGE candles positions amd params = .NEUTRAL ↔
            ¬(arbThreshold sq ((amd "BTC").map (·.close)) <
                arbReturnOf ((amd "BTC").map (·.close)) pb
              ∧ arbReturnOf (candles.map (·.close)) pa <
                arbReturnOf ((amd "BTC").map (·.close)) pb * 0.5)
            ∧ ¬(arbReturnOf ((amd "BTC").map (·.close)) pb <
                -arbThreshold sq ((amd "BTC").map (·.close))
              ∧ arbReturnOf ((amd "BTC").map (·.close)) pb * 0.5 <
                arbReturnOf (candles.map (·.close)) pa)))) := by
  constructor
  · rintro (h | h | h | h)
    · simp only [getStrategySignal, arbitrageSignal]
      rw [if_pos (by simpa using h)]
    · by_cases hb : ((amd "BTC").map (·.close)).length < 30
      · simp only [getStrategySignal, arbitrageSignal]
        rw [if_pos (by simpa using hb)]
      · simp only [getStrategySignal, arbitrageSignal, hhead, Option.map_some']
        rw [if_neg (by simpa using hb), if_pos h]
    · by_cases hb : ((amd "BTC").map (·.close)).length < 30
      · simp only [getStrategySignal, arbitrageSignal]
        rw [if_pos (by simpa using hb)]
      · simp only [getStrategySignal, arbitrageSignal, hhead, Option.map_some']
        rw [if_neg (by simpa using hb), if_neg (by simp [h]), if_pos h]
    · by_cases hb : ((amd "BTC").map (·.close)).length < 30
      · simp only [getStrategySignal, arbitrageSignal]
        rw [if_pos (by simpa using hb)]
      · by_cases hsym0 : c0.symbol = ""
        · simp only [getStrategySignal, arbitrageSignal, hhead, Option.map_some']
          rw [if_neg (by simpa using hb), if_pos hsym0]
        · by_cases hsym : c0.symbol = "BTC"
          · simp only [getStrategySignal, arbitrageSignal, hhead, Option.map_some']
            rw [if_neg (by simpa using hb), if_neg hsym0, if_pos hsym]
          · have hr : ¬(arbBtcReturns ((amd "BTC").map (·.close))).length = 0 := by
              rw [arbBtcReturns_length]
              simp only [List.length_map]
              simp only [List.length_map, not_lt] at hb
              omega
            have hv : ¬(lastN (candles.map (·.volume)) 20).length = 0 := by
              rw [lastN_length]
              simp only [List.length_map]
              omega
            simp only [getStrategySignal, arbitrageSignal, hhead, Option.map_some']
            rw [if_neg (by simpa using hb), if_neg hsym0, if_neg hsym, if_neg hr,
              if_neg hv, if_pos h]
  · intro hb30 hsym0 hsym hvol pb pa hpb hpa
    have hb : ¬((amd "BTC").map (·.close)).length < 30 := by
      simp only [List.length_map, not_lt]
      exact hb30
    have hr : ¬(arbBtcReturns ((amd "BTC").map (·.close))).length = 0 := by
      rw [arbBtcReturns_length]
      simp only [List.length_map]
      omega
    have hv : ¬(lastN (candles.map (·.volume)) 20).length = 0 := by
      rw [lastN_length]
      simp only [List.length_map]
      omega
    have hpb0 : 0 < pb := by
      have hmem := jsIdx_mem hpb
      simp only [List.mem_map] at hmem
      obtain ⟨c, hc, hcx⟩ := hmem
      rw [← hcx]
      exact hposb c hc
    have hpa0 : 0 < pa := by
      have hmem := jsIdx_mem hpa
      simp only [List.mem_map] at hmem
      obtain ⟨c, hc, hcx⟩ := hmem
      rw [← hcx]
      exact hposa c hc
    have hnz : ¬(pb = 0 ∨ pa = 0) := by
      rintro (h | h) <;> simp_all
    have hthr : (0.0035 : ℚ) ≤ arbThreshold sq ((amd "BTC").map (·.close)) :=
      le_max_left _ _
    simp only [getStrategySignal, arbitrageSignal, hhead, Option.map_some']
    rw [if_neg (not_lt.mpr hb30), if_neg hsym0, if_neg hsym, if_neg hr, if_neg hv,
      if_neg hvol, hpb, hpa]
    simp only []
    rw [if_neg hnz]
    split_ifs with h1 h2
    · exact ⟨iff_of_true rfl h1,
        iff_of_false (by simp) (fun hc => by linarith [h1.1, hc.1]),
        iff_of_false (by simp) (fun hc => hc.1 h1)⟩
    · exact ⟨iff_of_false (by simp) h1,
        iff_of_true rfl h2,
        iff_of_false (by simp) (fun hc => hc.2 h2)⟩
    · exact ⟨iff_of_false (by simp) h1,
        iff_of_false (by simp) h2,
        iff_of_true rfl ⟨h1, h2⟩⟩

/-- C8 witness: 30 BTC candles with a +1% 5-bar move, a flat 6-candle
ETH asset with full volume — all preconditions hold and the strategy
signals BUY, matching the spec scenario. -/
theorem claim_C8_arbitrage_witness :
    wAsset6.head? = some (wCandle "ETH" 500)
    ∧ 6 ≤ wAsset6.length
    ∧ (∀ c ∈ wAsset6, 0 < c.close)
    ∧ (∀ c ∈ wAmdBtc "BTC", 0 < c.close)
    ∧ 30 ≤ (wAmdBtc "BTC").length
    ∧ (wCandle "ETH" 500).symbol ≠ ""
    ∧ (wCandle "ETH" 500).symbol ≠ "BTC"
    ∧ getStrategySignal wSq .ARBITRAGE wAsset6 [] wAmdBtc wParams = .BUY := by
  have hhead : wAsset6.head? = some (wCandle "ETH" 500) := by
    simp [wAsset6, List.replicate]
  have hposa : ∀ c ∈ wAsset6, 0 < c.close := by
    simp [wAsset6, wCandle, List.replicate]
  have hposb : ∀ c ∈ wAmdBtc "BTC", 0 < c.close := by
    intro c hc
    simp only [wAmdBtc, if_pos rfl, wBtc, wCandle] at hc
    rcases List.mem_append.mp hc with h | h <;>
      · rw [List.eq_of_mem_replicate h]
        norm_num
  have hb30 : 30 ≤ (wAmdBtc "BTC").length := by
    simp [wAmdBtc, wBtc]
  have hvol : ¬(wAsset6.map (·.volume)).getLast?.getD 0 <
      (lastN (wAsset6.map (·.volume)) 20).sum /
        ((lastN (wAsset6.map (·.volume)) 20).length : ℚ) * 0.4 := by
    norm_num [wAsset6, wCandle, List.replicate, lastN]
  have hpb : jsIdx ((wAmdBtc "BTC").map (·.close))
      ((((wAmdBtc "BTC").map (·.close)).length : ℤ) - 1 - 5) = some 1000 := by
    norm_num [wAmdBtc, wBtc, wCandle, List.replicate, jsIdx,
      show Int.toNat 24 = 24 from rfl]
  have hpa : jsIdx (wAsset6.map (·.close))
      (((wAsset6.map (·.close)).length : ℤ) - 1 - 5) = some 500 := by
    norm_num [wAsset6, wCandle, List.replicate, jsIdx,
      show Int.toNat 0 = 0 from rfl]
  have h := (claim_C8_arbitrage wSq wParams wAsset6 [] wAmdBtc (wCandle "ETH" 500)
    hhead (by norm_num [wAsset6]) hposa hposb).2 hb30
    (by simp [wCandle]) (by simp [wCandle]) hvol 1000 500 hpb hpa
  refine ⟨hhead, by norm_num [wAsset6], hposa, hposb, hb30, by simp [wCandle],
    by simp [wCandle], h.1.mpr ⟨?_, ?_⟩⟩
  · norm_num [arbThreshold, arbReturnOf, wSq, wAmdBtc, wBtc, wCandle, List.replicate]
  · norm_num [arbReturnOf, wAsset6, wAmdBtc, wBtc, wCandle, List.replicate]

theorem getStrategyInsight_type (sq : ℚ → ℚ) (strategy : StrategyType)
    (candles : List Candle) (positions : List Trade)
    (amd : String → List Candle) (params : StrategyParameters)
    (regime : MarketRegime) :
    (getStrategyInsight sq strategy candles positions amd params regime).type =
      strategy := by
  cases strategy <;> simp only [getStrategyInsight] <;> split_ifs <;> rfl

/-- C1 (amended): the per-strategy raw signal that the regime-aware
composite records in its insight for each enabled strategy equals the
signal produced by `getStrategyInsight` — the composite's own
regime-aware evaluator — NOT the §4.3 evaluator `getStrategySignal`
(the two differ; see the counterexample). -/
theorem claim_C1_insight_signal_source (sq : ℚ → ℚ)
    (strategies : List StrategyConfigItem) (candles : List Candle)
    (positions : List Trade) (amd : String → List Candle)
    (params : StrategyParameters) :
    (getCompositeStrategySignalRegime sq strategies candles positions amd
        params).insights.map (fun i => (i.type, i.signal)) =
      (strategies.filter (·.enabled)).map (fun s => (s.type,
        (getStrategyInsight sq s.type candles positions amd params
          (analyzeMarketRegime sq candles)).signal)) := by
  simp only [getCompositeStrategySignalRegime, regimeInsights, List.map_map]
  apply List.map_congr_left
  intro s hs
  simp [Function.comp, getStrategyInsight_type]

/-- C1 counterexample: with a single enabled EMA-crossover strategy and
four candles that force an EMA(1)/EMA(3) golden cross, the regime-aware
composite records NEUTRAL in its insight while `getStrategySignal`
returns BUY on the same inputs — so the recorded raw signal does NOT
equal the §4.3 evaluator's signal. -/
theorem claim_C1_insight_signal_source_counterexample :
    (getCompositeStrategySignalRegime wSq [⟨.EMA_CROSSOVER, true, 5⟩]
        wEmaCandles [] wAmd wParams).insights.map (fun i => (i.type, i.signal)) =
      [(.EMA_CROSSOVER, Signal.NEUTRAL)]
    ∧ getStrategySignal wSq .EMA_CROSSOVER wEmaCandles [] wAmd wParams = .BUY := by
  constructor
  · simp [getCompositeStrategySignalRegime, regimeInsights, getStrategyInsight,
      analyzeMarketRegime, wEmaCandles, wCandle, wAmd, wParams]
  · norm_num [getStrategySignal, emaCrossoverSignal, calculateEMASeries, emaSeriesTail,
      jsIdx, jsLE, jsGT, jsGE, jsLT, wSq, wAmd, wParams, wEmaCandles, wCandle,
      show Int.toNat 2 = 2 from rfl]

theorem score_if_eq_core (S W : ℚ) (h1 : -W ≤ S) (h2 : S ≤ W) (hW : 0 ≤ W) :
    -1 ≤ (if W = 0 then 0 else S / W) ∧ (if W = 0 then 0 else S / W) ≤ 1 := by
  split_ifs with h
  · norm_num
  · have hpos : 0 < W := lt_of_le_of_ne hW (Ne.symm h)
    constructor
    · rw [le_div_iff₀ hpos]
      linarith
    · rw [div_le_one hpos]
      exact h2

theorem score_if_pos_core (S W : ℚ) (h1 : -W ≤ S) (h2 : S ≤ W) :
    -1 ≤ (if 0 < W then S / W else 0) ∧ (if 0 < W then S / W else 0) ≤ 1 := by
  split_ifs with h
  · constructor
    · rw [le_div_iff₀ h]
      linarith
    · rw [div_le_one h]
      exact h2
  · norm_num


theorem plainComposite_score (sq : ℚ → ℚ) (strategies : List StrategyConfigItem)
    (candles : List Candle) (positions : List Trade)
    (amd : String → List Candle) (params : StrategyParameters) :
    (getCompositeStrategySignal sq strategies candles positions amd params).score =
      if ((plainBreakdown sq strategies candles positions amd params).map (·.weight)).sum = 0
        then 0
      else ((plainBreakdown sq strategies candles positions amd params).map
          (fun b => numericSignal b.signal * b.weight)).sum /
        ((plainBreakdown sq strategies candles positions amd params).map (·.weight)).sum := by
  simp only [getCompositeStrategySignal]
  split_ifs <;> rfl

theorem plainComposite_signal (sq : ℚ → ℚ) (strategies : List StrategyConfigItem)
    (candles : List Candle) (positions : List Trade)
    (amd : String → List Candle) (params : StrategyParameters) :
    (getCompositeStrategySignal sq strategies candles positions amd params).signal =
      if ((plainBreakdown sq strategies candles positions amd params).map (·.weight)).sum = 0
        then .NEUTRAL
      else if (0.25 : ℚ) < ((plainBreakdown sq strategies candles positions amd params).map
          (fun b => numericSignal b.signal * b.weight)).sum /
          ((plainBreakdown sq strategies candles positions amd params).map (·.weight)).sum
        then .BUY
      else if ((plainBreakdown sq strategies candles positions amd params).map
          (fun b => numericSignal b.signal * b.weight)).sum /
          ((plainBreakdown sq strategies candles positions amd params).map (·.weight)).sum
          < -0.25 then .SELL
      else .NEUTRAL := by
  simp only [getCompositeStrategySignal]
  split_ifs <;> rfl

theorem plainComposite_breakdown (sq : ℚ → ℚ) (strategies : List StrategyConfigItem)
    (candles : List Candle) (positions : List Trade)
    (amd : String → List Candle) (params : StrategyParameters) :
    (getCompositeStrategySignal sq strategies candles positions amd params).breakdown =
      plainBreakdown sq strategies candles positions amd params := by
  simp only [getCompositeStrategySignal]
  split_ifs <;> rfl

theorem regimeComposite_score (sq : ℚ → ℚ) (strategies : List StrategyConfigItem)
    (candles : List Candle) (positions : List Trade)
    (amd : String → List Candle) (params : StrategyParameters) :
    (getCompositeStrategySignalRegime sq strategies candles positions amd params).score =
      if 0 < ((regimeInsights sq strategies candles positions amd params
          (analyzeMarketRegime sq candles)).map (·.adjustedWeight)).sum
        then ((regimeInsights sq strategies candles positions amd params
          (analyzeMarketRegime sq candles)).map
            (fun i => numericSignal i.signal * i.adjustedWeight)).sum /
          ((regimeInsights sq strategies candles positions amd params
            (analyzeMarketRegime sq candles)).map (·.adjustedWeight)).sum
        else 0 := rfl

theorem regimeComposite_signal (sq : ℚ → ℚ) (strategies : List StrategyConfigItem)
    (candles : List Candle) (positions : List Trade)
    (amd : String → List Candle) (params : StrategyParameters) :
    (getCompositeStrategySignalRegime sq strategies candles positions amd params).signal =
      if (0.25 : ℚ) <
          (getCompositeStrategySignalRegime sq strategies candles positions amd params).score
        then .BUY
      else if (getCompositeStrategySignalRegime sq strategies candles positions amd
          params).score < -0.25 then .SELL
      else .NEUTRAL := rfl

theorem regimeComposite_insights (sq : ℚ → ℚ) (strategies : List StrategyConfigItem)
    (candles : List Candle) (positions : List Trade)
    (amd : String → List Candle) (params : StrategyParameters) :
    (getCompositeStrategySignalRegime sq strategies candles positions amd params).insights =
      regimeInsights sq strategies candles positions amd params
        (analyzeMarketRegime sq candles) := rfl

theorem plainBreakdown_weight_sum (sq : ℚ → ℚ) (strategies : List StrategyConfigItem)
    (candles : List Candle) (positions : List Trade)
    (amd : String → List Candle) (params : StrategyParameters) :
    ((plainBreakdown sq strategies candles positions amd params).map (·.weight)).sum =
      compositeTotalWeight strategies := by
  rw [plainBreakdown, compositeTotalWeight, List.map_map]
  apply congrArg List.sum
  apply List.map_congr_left
  intro s hs
  rfl

theorem regimeInsights_weight_sum (sq : ℚ → ℚ) (strategies : List StrategyConfigItem)
    (candles : List Candle) (positions : List Trade)
    (amd : String → List Candle) (params : StrategyParameters) :
    ((regimeInsights sq strategies candles positions amd params
        (analyzeMarketRegime sq candles)).map (·.adjustedWeight)).sum =
      compositeTotalWeightRegime sq strategies candles := by
  rw [regimeInsights, compositeTotalWeightRegime, List.map_map]
  apply congrArg List.sum
  apply List.map_congr_left
  intro s hs
  rfl

/-- C3: with all configured weights in [1, 10], both composite variants
produce a score in [-1, 1]; and whenever the accumulated total weight is
0 (in particular with no enabled strategy) the score is exactly 0, the
signal is NEUTRAL, and the breakdown/insight list is empty. -/
theorem claim_C3_composite_bounds (sq : ℚ → ℚ)
    (strategies : List StrategyConfigItem) (candles : List Candle)
    (positions : List Trade) (amd : String → List Candle)
    (params : StrategyParameters)
    (hw : ∀ s ∈ strategies, 1 ≤ s.weight ∧ s.weight ≤ 10) :
    (-1 ≤ (getCompositeStrategySignal sq strategies candles positions amd params).score
      ∧ (getCompositeStrategySignal sq strategies candles positions amd params).score ≤ 1)
    ∧ (-1 ≤ (getCompositeStrategySignalRegime sq strategies candles positions amd params).score
      ∧ (getCompositeStrategySignalRegime sq strategies candles positions amd params).score ≤ 1)
    ∧ (compositeTotalWeight strategies = 0 →
        (getCompositeStrategySignal sq strategies candles positions amd params).score = 0
        ∧ (getCompositeStrategySignal sq strategies candles positions amd params).signal = .NEUTRAL
        ∧ (getCompositeStrategySignal sq strategies candles positions amd params).breakdown = [])
    ∧ (compositeTotalWeightRegime sq strategies candles = 0 →
        (getCompositeStrategySignalRegime sq strategies candles positions amd params).score = 0
        ∧ (getCompositeStrategySignalRegime sq strategies candles positions amd params).signal =
            .NEUTRAL
        ∧ (getCompositeStrategySignalRegime sq strategies candles positions amd
            params).insights = []) := by
  have hw1 : ∀ s ∈ strategies.filter (·.enabled), 1 ≤ s.weight :=
    fun s hs => (hw s (List.mem_of_mem_filter hs)).1
  have hwbd : ∀ b ∈ plainBreakdown sq strategies candles positions amd params,
      0 ≤ b.weight := by
    intro b hb
    simp only [plainBreakdown, List.mem_map] at hb
    obtain ⟨s, hs, rfl⟩ := hb
    have := hw1 s hs
    linarith
  have hwins : ∀ i ∈ regimeInsights sq strategies candles positions amd params
      (analyzeMarketRegime sq candles), 0 ≤ i.adjustedWeight := by
    intro i hi
    simp only [regimeInsights, List.mem_map] at hi
    obtain ⟨s, hs, rfl⟩ := hi
    exact adjustWeight_nonneg _ s.type s.weight (by linarith [hw1 s hs])
  have hWbd : 0 ≤ ((plainBreakdown sq strategies candles positions amd params).map
      (·.weight)).sum := by
    apply List.sum_nonneg
    intro x hx
    simp only [List.mem_map] at hx
    obtain ⟨b, hb, rfl⟩ := hx
    exact hwbd b hb
  have hSbd := vote_sum_bounds (plainBreakdown sq strategies candles positions amd params)
    (fun b => numericSignal b.signal) (·.weight)
    (fun b _ => numericSignal_bounds b.signal) hwbd
  have hSins := vote_sum_bounds (regimeInsights sq strategies candles positions amd params
      (analyzeMarketRegime sq candles))
    (fun i => numericSignal i.signal) (·.adjustedWeight)
    (fun i _ => numericSignal_bounds i.signal) hwins
  refine ⟨?_, ?_, ?_, ?_⟩
  · rw [plainComposite_score]
    exact score_if_eq_core _ _ hSbd.1 hSbd.2 hWbd
  · rw [regimeComposite_score]
    exact score_if_pos_core _ _ hSins.1 hSins.2
  · intro h0
    have hempty : strategies.filter (·.enabled) = [] := by
      apply (pos_sum_eq_zero_iff (strategies.filter (·.enabled)) (·.weight)
        (fun s hs => by linarith [hw1 s hs])).mp
      simpa [compositeTotalWeight] using h0
    have hbde : plainBreakdown sq strategies candles positions amd params = [] := by
      simp [plainBreakdown, hempty]
    refine ⟨?_, ?_, ?_⟩
    · rw [plainComposite_score, hbde]
      simp
    · rw [plainComposite_signal, hbde]
      simp
    · rw [plainComposite_breakdown, hbde]
  · intro h0
    have hempty : strategies.filter (·.enabled) = [] := by
      apply (pos_sum_eq_zero_iff (strategies.filter (·.enabled))
        (fun s => adjustWeight (analyzeMarketRegime sq candles) s.type s.weight)
        (fun s hs => adjustWeight_pos _ s.type s.weight (hw1 s hs))).mp
      simpa [compositeTotalWeightRegime] using h0
    have hinse : regimeInsights sq strategies candles positions amd params
        (analyzeMarketRegime sq candles) = [] := by
      simp [regimeInsights, hempty]
    have hsc : (getCompositeStrategySignalRegime sq strategies candles positions amd
        params).score = 0 := by
      rw [regimeComposite_score, hinse]
      simp
    refine ⟨hsc, ?_, ?_⟩
    · rw [regimeComposite_signal, hsc]
      norm_num
    · rw [regimeComposite_insights, hinse]

/-- C3 witness: the empty strategy configuration satisfies the weight
hypothesis vacuously, both total weights are 0, and both composites
return score 0, signal NEUTRAL and an empty breakdown/insight list. -/
theorem claim_C3_composite_bounds_witness :
    (∀ s ∈ ([] : List StrategyConfigItem), 1 ≤ s.weight ∧ s.weight ≤ 10)
    ∧ compositeTotalWeight [] = 0
    ∧ compositeTotalWeightRegime wSq [] [] = 0
    ∧ (getCompositeStrategySignal wSq [] [] [] wAmd wParams).score = 0
    ∧ (getCompositeStrategySignal wSq [] [] [] wAmd wParams).signal = .NEUTRAL
    ∧ (getCompositeStrategySignal wSq [] [] [] wAmd wParams).breakdown = []
    ∧ (getCompositeStrategySignalRegime wSq [] [] [] wAmd wParams).score = 0
    ∧ (getCompositeStrategySignalRegime wSq [] [] [] wAmd wParams).signal = .NEUTRAL
    ∧ (getCompositeStrategySignalRegime wSq [] [] [] wAmd wParams).insights = [] := by
  have h := claim_C3_composite_bounds wSq [] [] [] wAmd wParams (by simp)
  have h0 : compositeTotalWeight [] = 0 := by simp [compositeTotalWeight]
  have h0r : compositeTotalWeightRegime wSq [] [] = 0 := by
    simp [compositeTotalWeightRegime]
  have hp := h.2.2.1 h0
  have hr := h.2.2.2 h0r
  exact ⟨by simp, h0, h0r, hp.1, hp.2.1, hp.2.2, hr.1, hr.2.1, hr.2.2⟩
